import Mathlib

/-!
Verification of the article aggregation/favourite core of the
hublish backend (`src/controllers/article.controller.ts` over the Prisma/
MongoDB data model in `prisma/schema.prisma`).

The controllers are shallowly embedded: the MongoDB collections become
lists of records, the aggregation pipelines become list operations
(`filter`, sort, `drop`/`take`, lookups via `find?`), and MongoDB's
documented rejection of malformed pipeline stages (negative `$skip`,
non-positive `$limit`, `$divide` by zero, NaN-valued stages) becomes an
explicit `storageError` result.  Auto-managed `updatedAt` timestamps and
fields never read by this controller (passwords, e-mail, refresh tokens,
follower counters) are omitted from the record types.
-/

/-- `Article` record (schema.prisma `model Article`), restricted to the
fields the controller reads or writes.  `createdAt` is an abstract
timestamp; `favouriteCount` is the denormalized counter (`Int`, as in the
schema, so that an unguarded decrement could in principle go negative). -/
structure Article where
  id : String
  title : String
  slug : String
  content : String
  tags : List String
  favouriteCount : Int
  createdAt : Nat
  author_id : String
deriving DecidableEq, Repr

/-- `User` record (schema.prisma `model User`), restricted to the public
summary fields projected by the controller's author lookups. -/
structure User where
  id : String
  username : String
  name : String
  bio : String
  image : String
deriving DecidableEq, Repr

/-- `Favourite` relation record (schema.prisma `model Favourite`). -/
structure Favourite where
  id : String
  user_id : String
  article_id : String
  createdAt : Nat
deriving DecidableEq, Repr

/-- `Follow` relation record (schema.prisma `model Follow`). -/
structure Follow where
  follower_id : String
  following_id : String
deriving DecidableEq, Repr

/-- The document store: one list per collection used by the controller. -/
structure DB where
  users : List User
  articles : List Article
  favourites : List Favourite
  follows : List Follow
deriving DecidableEq, Repr

/-- Author summary embedded in an enriched article (the `$project` of the
`User` `$lookup`): id, username, name, bio, image. -/
structure EnrichedArticle where
  id : String
  title : String
  slug : String
  content : String
  tags : List String
  favouriteCount : Int
  createdAt : Nat
  author_id : String
  author : Option User
  favourited : Bool
deriving DecidableEq, Repr

/-- The paged envelope returned by every listing endpoint.  `page` is an
`Option Int` because the code emits `$literal: parseInt(page)`: a NaN
parse serializes to JSON `null` (modelled as `none`) on the one endpoint
whose pipeline never otherwise touches the page value. -/
structure PagedResult where
  total_results : Nat
  total_pages : Int
  page : Option Int
  results : List EnrichedArticle
deriving DecidableEq, Repr

/-- Outcome of a listing controller.  `invalidQuery` is the 400-class
rejection of the error taxonomy; `storageError` is a failure surfaced by
the storage engine (rejected pipeline / thrown transaction). -/
inductive ListResult where
  | notFound
  | invalidQuery
  | storageError
  | ok (r : PagedResult)
deriving DecidableEq, Repr

/-- Accumulate the leading decimal digits of `cs` onto `acc`, stopping at
the first non-digit (JS `parseInt` ignores trailing garbage). -/
def takeDigitsVal : List Char → Nat → Nat
  | [], acc => acc
  | c :: cs, acc =>
    if c.isDigit then takeDigitsVal cs (acc * 10 + (c.toNat - 48)) else acc

/-- Model of JavaScript `parseInt(s)` (radix 10): skip leading whitespace,
optional sign, then the longest digit run; `none` models `NaN`. -/
def parseIntJs (s : String) : Option Int :=
  let cs := s.toList.dropWhile (fun c => c == ' ' || c == '\t' || c == '\n' || c == '\r')
  let signed : Int × List Char :=
    match cs with
    | '-' :: t => (-1, t)
    | '+' :: t => (1, t)
    | t => (1, t)
  match signed.2 with
  | c :: _ => if c.isDigit then some (signed.1 * (takeDigitsVal signed.2 0 : Nat)) else none
  | [] => none

/-- `const { limit = 10 } = req.query` followed by `parseInt(limit)`:
an absent parameter defaults to 10, a present one is parsed. -/
def parsedLimit (q : Option String) : Option Int :=
  match q with
  | none => some 10
  | some s => parseIntJs s

/-- `const { page = 1 } = req.query` followed by `parseInt(page)`. -/
def parsedPage (q : Option String) : Option Int :=
  match q with
  | none => some 1
  | some s => parseIntJs s

/-- Insert into a list kept sorted by `key` descending (later elements
with an equal key stay behind earlier ones). -/
def insertByKeyDesc (key : α → Nat) (a : α) : List α → List α
  | [] => [a]
  | b :: t => if key b < key a then a :: b :: t else b :: insertByKeyDesc key a t

/-- Model of the `$sort: { createdAt: -1 }` stage: sort descending by the
given key (insertion sort; MongoDB only guarantees the key order). -/
def sortByKeyDesc (key : α → Nat) : List α → List α
  | [] => []
  | a :: t => insertByKeyDesc key a (sortByKeyDesc key t)

/-- Model of the `$ceil`/`$divide` pair computing `total_pages`:
`ceil(a / l)` for a non-negative total `a` and a non-zero integer `l`. -/
def ceilDivMongo (a : Nat) (l : Int) : Int :=
  if 0 < l then ((a + l.toNat - 1) / l.toNat : Nat) else -((a : Int) / (-l))

/-- Match of a stored id against the optional viewer id: the pipelines
filter with `user_id: { $oid: loggedInUserId }`, and an absent viewer id
serializes to a value no stored ObjectId equals, so it matches nothing. -/
def oidMatch (viewer : Option String) (s : String) : Bool :=
  match viewer with
  | some v => s == v
  | none => false

/-- `needle` occurs contiguously inside `hay` (substring containment). -/
def containsSub (hay needle : List Char) : Bool :=
  match hay with
  | [] => needle.isEmpty
  | _ :: t => needle.isPrefixOf hay || containsSub t needle

/-- Charwise ASCII case folding; `$options: "i"` is modelled by lowering
both pattern and subject. -/
def lowerChars (s : String) : List Char :=
  s.toList.map Char.toLower

/-- The spec's reading of the search match ("case-insensitive substring
match"): case-insensitive substring containment.  The source performs
`$regex` matching (`regexSearchCI` below); the two coincide exactly for
patterns free of regex metacharacters and diverge otherwise. -/
def ciContains (pat s : String) : Bool :=
  containsSub (lowerChars s) (lowerChars pat)

/-- Regular expressions as matched by the storage engine's `$regex`
operator.  The model covers the PCRE fragment used for search patterns:
literal characters, backslash-escaped punctuation, `.`, `*`, `+`, `?`
and top-level `|`.  Character classes, braces, anchors and groups are
outside the modelled fragment; the parser rejects such patterns. -/
inductive Regex where
  | fail
  | epsilon
  | char (c : Char)
  | any
  | concat (r1 r2 : Regex)
  | alt (r1 r2 : Regex)
  | star (r : Regex)
deriving DecidableEq, Repr

/-- The regex accepts the empty string. -/
def nullable : Regex → Bool
  | .fail => false
  | .epsilon => true
  | .char _ => false
  | .any => false
  | .concat r1 r2 => nullable r1 && nullable r2
  | .alt r1 r2 => nullable r1 || nullable r2
  | .star _ => true

/-- Concatenation, simplified at `fail` and `epsilon` (same language). -/
def rcat : Regex → Regex → Regex
  | .fail, _ => .fail
  | _, .fail => .fail
  | .epsilon, r => r
  | r, .epsilon => r
  | r1, r2 => .concat r1 r2

/-- Alternation, simplified at `fail` (same language). -/
def ralt : Regex → Regex → Regex
  | .fail, r => r
  | r, .fail => r
  | r1, r2 => .alt r1 r2

/-- Brzozowski derivative: the language of `r` after consuming `x`. -/
def rderiv : Regex → Char → Regex
  | .fail, _ => .fail
  | .epsilon, _ => .fail
  | .char c, x => if x == c then .epsilon else .fail
  | .any, _ => .epsilon
  | .concat r1 r2, x =>
    if nullable r1 then ralt (rcat (rderiv r1 x) r2) (rderiv r2 x)
    else rcat (rderiv r1 x) r2
  | .alt r1 r2, x => ralt (rderiv r1 x) (rderiv r2 x)
  | .star r, x => rcat (rderiv r x) (.star r)

/-- Some prefix of `cs` is in the language of `r`. -/
def matchesPrefix : Regex → List Char → Bool
  | r, [] => nullable r
  | r, c :: cs => nullable r || matchesPrefix (rderiv r c) cs

/-- Unanchored match, as `$regex` performs it: the regex matches starting
at some position of the subject. -/
def searchRegex (r : Regex) : List Char → Bool
  | [] => nullable r
  | c :: cs => matchesPrefix r (c :: cs) || searchRegex r cs

/-- Pattern tokens. -/
inductive RTok where
  | lit (c : Char)
  | dot
  | star
  | plus
  | quest
  | bar
deriving DecidableEq, Repr

/-- A character with no special meaning in a pattern. -/
def isPlainChar (c : Char) : Bool :=
  !(c == '\\' || c == '.' || c == '*' || c == '+' || c == '?' || c == '|' ||
    c == '(' || c == ')' || c == '[' || c == ']' || c == '{' || c == '}' ||
    c == '^' || c == '$')

/-- Tokenize a pattern: a backslash escapes punctuation (alphanumeric
escapes are class shorthands, outside the fragment), the operator
characters become operator tokens, plain characters become literals, and
the remaining metacharacters (classes, braces, anchors, groups) are
rejected as outside the fragment. -/
def rtokenize : List Char → Option (List RTok)
  | [] => some []
  | c :: rest =>
    if c == '\\' then
      match rest with
      | [] => none
      | e :: rest2 =>
        if e.isAlphanum then none
        else (rtokenize rest2).map (fun ts => RTok.lit e :: ts)
    else if c == '.' then (rtokenize rest).map (fun ts => RTok.dot :: ts)
    else if c == '*' then (rtokenize rest).map (fun ts => RTok.star :: ts)
    else if c == '+' then (rtokenize rest).map (fun ts => RTok.plus :: ts)
    else if c == '?' then (rtokenize rest).map (fun ts => RTok.quest :: ts)
    else if c == '|' then (rtokenize rest).map (fun ts => RTok.bar :: ts)
    else if isPlainChar c then (rtokenize rest).map (fun ts => RTok.lit c :: ts)
    else none

/-- The atom a single token denotes, if any. -/
def atomOf : RTok → Option Regex
  | .lit c => some (.char c)
  | .dot => some .any
  | _ => none

/-- Parse one alternant: a sequence of atoms, each optionally followed by
one `*`, `+` (as `r·r*`) or `?` (as `r|ε`); a leading or doubled
operator is "nothing to repeat" and fails, as in PCRE. -/
def parseSeqTok : List RTok → Option Regex
  | [] => some .epsilon
  | t :: RTok.star :: rest =>
    match atomOf t with
    | none => none
    | some r => (parseSeqTok rest).map (fun r2 => Regex.concat (.star r) r2)
  | t :: RTok.plus :: rest =>
    match atomOf t with
    | none => none
    | some r => (parseSeqTok rest).map (fun r2 => Regex.concat (.concat r (.star r)) r2)
  | t :: RTok.quest :: rest =>
    match atomOf t with
    | none => none
    | some r => (parseSeqTok rest).map (fun r2 => Regex.concat (.alt r .epsilon) r2)
  | t :: rest =>
    match atomOf t with
    | none => none
    | some r => (parseSeqTok rest).map (fun r2 => Regex.concat r r2)

/-- Split a token list at top-level `|`. -/
def splitBars : List RTok → List (List RTok)
  | [] => [[]]
  | RTok.bar :: rest => [] :: splitBars rest
  | t :: rest =>
    match splitBars rest with
    | [] => [[t]]
    | g :: gs => (t :: g) :: gs

/-- Parse every alternant of a bar-split pattern. -/
def parseAlts : List (List RTok) → Option (List Regex)
  | [] => some []
  | g :: gs =>
    match parseSeqTok g, parseAlts gs with
    | some r, some rs => some (r :: rs)
    | _, _ => none

/-- Assemble the alternation of all alternants. -/
def parseRegexTokens (ts : List RTok) : Option Regex :=
  match parseAlts (splitBars ts) with
  | some (r :: rs) => some (rs.foldl Regex.alt r)
  | _ => none

/-- Parse a pattern; `none` models a pattern the engine rejects (or one
outside the modelled fragment). -/
def parseRegexChars (cs : List Char) : Option Regex :=
  match rtokenize cs with
  | none => none
  | some ts => parseRegexTokens ts

/-- Model of `$regex` with `$options: "i"`: parse the lowercased pattern
and search the lowercased subject (ASCII case folding). -/
def regexSearchCI (pat s : String) : Option Bool :=
  (parseRegexChars (lowerChars pat)).map (fun r => searchRegex r (lowerChars s))

/-- The `title: { $regex: title, $options: "i" }` query entry: an article
predicate, or `none` for a pattern the engine rejects. -/
def titleMatcher (t : String) : Option (Article → Bool) :=
  (parseRegexChars (lowerChars t)).map
    (fun r a => searchRegex r (lowerChars a.title))

/-- The `tags: { $regex: tags, $options: "i" }` query entry: an
array-field `$regex` matches if any tag element matches. -/
def tagsMatcher (g : String) : Option (Article → Bool) :=
  (parseRegexChars (lowerChars g)).map
    (fun r a => a.tags.any (fun s => searchRegex r (lowerChars s)))

/-- The truthiness test `if (title) ...` on an optional query string: an
absent parameter and the empty string are both falsy. -/
def truthyStr : Option String → Option String
  | none => none
  | some s => if s == "" then none else some s

/-- The `query` array built by `searchArticles`: one entry per truthy
parameter, title first; `none` when a present pattern is invalid (the
aggregation then fails engine-side). -/
def searchQuery (titleQ tagsQ : Option String) : Option (List (Article → Bool)) :=
  match truthyStr titleQ, truthyStr tagsQ with
  | none, none => some []
  | some t, none => (titleMatcher t).map (fun m => [m])
  | none, some g => (tagsMatcher g).map (fun m => [m])
  | some t, some g =>
    match titleMatcher t, tagsMatcher g with
    | some m1, some m2 => some [m1, m2]
    | _, _ => none

/-- The `$match` stage of `searchArticles`:
`query.length > 0 ? { $or: query } : {}`. -/
def searchPred (titleQ tagsQ : Option String) : Option (Article → Bool) :=
  (searchQuery titleQ tagsQ).map
    (fun q a => if q.length > 0 then q.any (fun pr => pr a) else true)

/-- The shared enrichment projection of the article-based pipelines
(`getFeedArticles`, `getUserCreatedArticles`, `searchArticles`; the three
blocks in the source are textually identical): author summary via the
`User` `$lookup` (`$arrayElemAt 0` of an empty lookup leaves the field
absent, modelled `none`) and `favourited` as `$size > 0` of the
`Favourite` lookup matching the viewer id and this article's id. -/
def enrichArticle (db : DB) (viewer : Option String) (a : Article) : EnrichedArticle :=
  { id := a.id
    title := a.title
    slug := a.slug
    content := a.content
    tags := a.tags
    favouriteCount := a.favouriteCount
    createdAt := a.createdAt
    author_id := a.author_id
    author := db.users.find? (fun u => u.id == a.author_id)
    favourited :=
      0 < (db.favourites.filter
        (fun f => oidMatch viewer f.user_id && f.article_id == a.id)).length }

/-- The enrichment of `getFavouriteArticles`, which pages over `Favourite`
records: `$lookup` the article by `article_id` and `$unwind` it (a
favourite whose article is missing is dropped), then the same author and
viewer-favourite lookups, with `$$t_article_id` being the favourite's
`article_id`. -/
def enrichFavourite (db : DB) (viewer : Option String) (f : Favourite) :
    Option EnrichedArticle :=
  match db.articles.find? (fun a => a.id == f.article_id) with
  | none => none
  | some a =>
    some
      { id := a.id
        title := a.title
        slug := a.slug
        content := a.content
        tags := a.tags
        favouriteCount := a.favouriteCount
        createdAt := a.createdAt
        author_id := a.author_id
        author := db.users.find? (fun u => u.id == a.author_id)
        favourited :=
          0 < (db.favourites.filter
            (fun g => oidMatch viewer g.user_id && g.article_id == f.article_id)).length }

/-- MongoDB's acceptance condition for the three pipelines that contain
`$skip`/`$limit`/`$divide` stages: both parameters parsed (a NaN stage is
rejected), `$limit` positive (which also rules out the `$divide` by
zero), and `$skip = limit * (page - 1)` non-negative. -/
def slicedParamsOk (limit page : Option Int) : Bool :=
  match limit, page with
  | some l, some p => 1 ≤ l && 1 ≤ p
  | _, _ => false

/-- The page slice `$skip`/`$limit` applied by the three sliced pipelines:
drop `limit * (page - 1)` records, keep at most `limit`. -/
def pageSlice (l p : Int) (xs : List α) : List α :=
  (xs.drop (l * (p - 1)).toNat).take l.toNat

/-- `GET /articles/:slug` (`getArticle`): look the article up by slug,
attach the author summary, and compute `favourited` from a
`favourite.findFirst` on (viewer id, article id); an absent viewer id
forces `favourited = false`. -/
def getArticle (db : DB) (viewer : Option String) (slug : String) :
    Option EnrichedArticle :=
  match db.articles.find? (fun a => a.slug == slug) with
  | none => none
  | some a =>
    some
      { id := a.id
        title := a.title
        slug := a.slug
        content := a.content
        tags := a.tags
        favouriteCount := a.favouriteCount
        createdAt := a.createdAt
        author_id := a.author_id
        author := db.users.find? (fun u => u.id == a.author_id)
        favourited :=
          match viewer with
          | none => false
          | some v =>
            (db.favourites.find? (fun f => f.user_id == v && f.article_id == a.id)).isSome }

/-- `getFavouriteArticles`: resolve the target username (404 when absent),
then run the favourite-paging pipeline — match `user_id = target.id`,
count, sort by `createdAt` descending, skip/limit, enrich. -/
def getFavouriteArticles (db : DB) (viewer : Option String) (username : String)
    (limitQ pageQ : Option String) : ListResult :=
  match db.users.find? (fun u => u.username == username) with
  | none => .notFound
  | some target =>
    match parsedLimit limitQ, parsedPage pageQ with
    | some l, some p =>
      if 1 ≤ l ∧ 1 ≤ p then
        let matched := db.favourites.filter (fun f => f.user_id == target.id)
        let results :=
          (pageSlice l p (sortByKeyDesc (fun f => f.createdAt) matched)).filterMap
            (enrichFavourite db viewer)
        .ok
          { total_results := matched.length
            total_pages := ceilDivMongo matched.length l
            page := some p
            results := results }
      else .storageError
    | _, _ => .storageError

/-- `getFeedArticles`: the `Follow` `$lookup` collects the `following_id`
of every follow whose `follower_id` is the viewer; the `$match` keeps
articles whose `author_id` is `$in` that set; then count, sort
descending, skip/limit, enrich. -/
def getFeedArticles (db : DB) (viewer : Option String)
    (limitQ pageQ : Option String) : ListResult :=
  match parsedLimit limitQ, parsedPage pageQ with
  | some l, some p =>
    if 1 ≤ l ∧ 1 ≤ p then
      let followingIds :=
        (db.follows.filter (fun fo => oidMatch viewer fo.follower_id)).map
          (fun fo => fo.following_id)
      let matched := db.articles.filter (fun a => followingIds.contains a.author_id)
      let results :=
        (pageSlice l p (sortByKeyDesc (fun a => a.createdAt) matched)).map
          (enrichArticle db viewer)
      .ok
        { total_results := matched.length
          total_pages := ceilDivMongo matched.length l
          page := some p
          results := results }
    else .storageError
  | _, _ => .storageError

/-- `getUserCreatedArticles`: resolve the target username (404 when
absent), match `author_id = target.id`, count, sort descending, enrich.
Unlike the other three pipelines, the source has no `$skip` and no
`$limit` stage in its results facet, so the parsed page value only feeds
the `$literal` page echo (a NaN parse becomes JSON `null`, i.e. `none`)
and the parsed limit only feeds the `$divide` (rejected exactly when it
is NaN or zero). -/
def getUserCreatedArticles (db : DB) (viewer : Option String) (username : String)
    (limitQ pageQ : Option String) : ListResult :=
  match db.users.find? (fun u => u.username == username) with
  | none => .notFound
  | some target =>
    match parsedLimit limitQ with
    | some l =>
      if l ≠ 0 then
        let matched := db.articles.filter (fun a => a.author_id == target.id)
        let results :=
          (sortByKeyDesc (fun a => a.createdAt) matched).map (enrichArticle db viewer)
        .ok
          { total_results := matched.length
            total_pages := ceilDivMongo matched.length l
            page := parsedPage pageQ
            results := results }
      else .storageError
    | none => .storageError

/-- `searchArticles`: build the `$or` query from the truthy `title` and
`tags` parameters (a present invalid pattern makes the aggregation fail
engine-side), match, count, sort descending, skip/limit, enrich. -/
def searchArticles (db : DB) (viewer : Option String)
    (titleQ tagsQ limitQ pageQ : Option String) : ListResult :=
  match searchPred titleQ tagsQ with
  | none => .storageError
  | some pred =>
    match parsedLimit limitQ, parsedPage pageQ with
    | some l, some p =>
      if 1 ≤ l ∧ 1 ≤ p then
        let matched := db.articles.filter pred
        let results :=
          (pageSlice l p (sortByKeyDesc (fun a => a.createdAt) matched)).map
            (enrichArticle db viewer)
        .ok
          { total_results := matched.length
            total_pages := ceilDivMongo matched.length l
            page := some p
            results := results }
      else .storageError
    | _, _ => .storageError

/-- Outcome of a favourite/unfavourite controller call.  `ok` carries the
post-transaction store and the updated article sent to the caller;
`storageError` is a thrown (and rolled-back) transaction. -/
inductive ToggleResult where
  | conflict
  | notFound
  | storageError
  | ok (db : DB) (article : Article)
deriving DecidableEq, Repr

/-- The `favourite.findFirst` filter used by both toggles: the record
belongs to the viewer and its related article (by `article_id`, a
foreign key into `articles`) has the requested slug. -/
def favMatch (articles : List Article) (viewer slug : String) (f : Favourite) : Bool :=
  f.user_id == viewer && articles.any (fun a => a.id == f.article_id && a.slug == slug)

/-- The `favouriteCount: { increment/decrement }` update targeted at
`where: { slug }`: bump the counter of the article with that slug by `d`. -/
def bumpBySlug (slug : String) (d : Int) (a : Article) : Article :=
  if a.slug == slug then { a with favouriteCount := a.favouriteCount + d } else a

/-- `favouriteArticle`: 409 when a favourite for (viewer, slug) already
exists; otherwise one transaction creates the favourite record (connected
to the viewer and to the article with the requested slug — a missing
connect target throws and rolls back, modelled `storageError`) and
increments the article's `favouriteCount`, returning the updated article.
`newId`/`now` stand for the engine-generated record id and timestamp. -/
def favouriteArticle (db : DB) (viewer slug newId : String) (now : Nat) : ToggleResult :=
  match db.favourites.find? (favMatch db.articles viewer slug) with
  | some _ => .conflict
  | none =>
    match db.articles.find? (fun a => a.slug == slug),
          db.users.find? (fun u => u.id == viewer) with
    | some b, some _ =>
      let f : Favourite := { id := newId, user_id := viewer, article_id := b.id, createdAt := now }
      .ok
        { db with
            favourites := db.favourites ++ [f]
            articles := db.articles.map (bumpBySlug slug 1) }
        { b with favouriteCount := b.favouriteCount + 1 }
    | _, _ => .storageError

/-- `unfavouriteArticle`: 404 when no favourite for (viewer, slug) exists;
otherwise one transaction deletes the found record by its unique `_id`
(storage ids are engine-unique, so this removes exactly the record
`findFirst` returned — modelled as erasing its first occurrence by value)
and decrements the article's `favouriteCount`. -/
def unfavouriteArticle (db : DB) (viewer slug : String) : ToggleResult :=
  match db.favourites.find? (favMatch db.articles viewer slug) with
  | none => .notFound
  | some f =>
    match db.articles.find? (fun a => a.slug == slug) with
    | some b =>
      .ok
        { db with
            favourites := db.favourites.erase f
            articles := db.articles.map (bumpBySlug slug (-1)) }
        { b with favouriteCount := b.favouriteCount - 1 }
    | none => .storageError

/-- One toggle request: a favourite call (with its engine-chosen fresh id
and timestamp) or an unfavourite call. -/
inductive Op where
  | fav (viewer slug newId : String) (now : Nat)
  | unfav (viewer slug : String)
deriving DecidableEq, Repr

/-- The store after one toggle request: unchanged unless the call
succeeded (a failed call either returns before the transaction or rolls
it back). -/
def applyOp (db : DB) : Op → DB
  | .fav v s i t =>
    match favouriteArticle db v s i t with
    | .ok db' _ => db'
    | _ => db
  | .unfav v s =>
    match unfavouriteArticle db v s with
    | .ok db' _ => db'
    | _ => db

/-- The store after a finite sequence of toggle requests. -/
def applyOps (db : DB) (ops : List Op) : DB :=
  ops.foldl applyOp db

/-- The denormalized-counter invariant: every article's `favouriteCount`
equals the number of live `Favourite` records referencing it. -/
def favCountInv (db : DB) : Prop :=
  ∀ a ∈ db.articles,
    a.favouriteCount = ((db.favourites.filter (fun f => f.article_id == a.id)).length : Int)

/-- A consistent store: article ids and slugs are unique (the schema
declares `slug @unique`, and storage `_id`s are engine-unique) and the
favourite counters agree with the favourite records. -/
def Consistent (db : DB) : Prop :=
  (db.articles.map (fun a => a.id)).Nodup ∧
  (db.articles.map (fun a => a.slug)).Nodup ∧
  favCountInv db

instance (db : DB) : Decidable (favCountInv db) := by
  unfold favCountInv; infer_instance

instance (db : DB) : Decidable (Consistent db) := by
  unfold Consistent; infer_instance

/-- Sample user for concrete evaluations. -/
def sampleUser : User :=
  { id := "u1", username := "alice", name := "", bio := "", image := "" }

/-- Sample article (newer). -/
def sampleArticleA : Article :=
  { id := "a1", title := "Hello Go", slug := "s1", content := "c1",
    tags := ["go", "backend"], favouriteCount := 0, createdAt := 2, author_id := "u1" }

/-- Sample article (older). -/
def sampleArticleB : Article :=
  { id := "a2", title := "Python post", slug := "s2", content := "c2",
    tags := ["python"], favouriteCount := 0, createdAt := 1, author_id := "u1" }

/-- Sample store: one author with two articles, no favourites, one follow
record by that author. -/
def sampleDB : DB :=
  { users := [sampleUser]
    articles := [sampleArticleA, sampleArticleB]
    favourites := []
    follows := [{ follower_id := "u1", following_id := "u2" }] }

/-- Sample store in which the author has favourited their first article. -/
def favSampleDB : DB :=
  { users := [sampleUser]
    articles := [{ sampleArticleA with favouriteCount := 1 }, sampleArticleB]
    favourites := [{ id := "f1", user_id := "u1", article_id := "a1", createdAt := 5 }]
    follows := [] }

/-- C1: the claim that all four listing modes apply the same
skip/limit page slice fails on the by-author mode: its results facet has
no `$skip` and no `$limit` stage.  With two stored articles by the target
author and `limit = 1, page = 1`, `getUserCreatedArticles` returns both
articles, while `searchArticles` under the same query returns the
one-element page slice. -/
theorem userCreated_missing_page_slice :
    (match getUserCreatedArticles sampleDB none "alice" (some "1") (some "1") with
     | .ok r => r.results.length
     | _ => 0) = 2 ∧
    (match searchArticles sampleDB none none none (some "1") (some "1") with
     | .ok r => r.results.length
     | _ => 0) = 1 ∧
    (match getFeedArticles sampleDB (some "u2") (some "1") (some "1") with
     | .ok r => r.results.length
     | _ => 0) = 0 := by
  decide

/-- C2: a `limit = 0` listing request is not explicitly rejected with
`InvalidQuery`; the zero limit flows into the pipeline, where the storage
engine rejects the `$limit: 0` stage / `$divide` by zero (surfaced as a
storage failure), on all four listing endpoints. -/
theorem limit_zero_is_storage_error_not_invalidQuery :
    searchArticles sampleDB none none none (some "0") (some "1") = .storageError ∧
    getFavouriteArticles sampleDB none "alice" (some "0") none = .storageError ∧
    getUserCreatedArticles sampleDB none "alice" (some "0") none = .storageError ∧
    getFeedArticles sampleDB (some "u1") (some "0") none = .storageError := by
  decide

/-- C3: a listing request with a non-numeric limit or page parameter is
not rejected with `InvalidQuery` before storage access: the by-favourite
endpoint first resolves the target username against storage and then
fails inside the pipeline (a storage failure), and the by-author endpoint
even succeeds with a non-numeric page, echoing a null page field. -/
theorem nonNumeric_params_not_rejected_before_storage :
    getFavouriteArticles sampleDB none "alice" (some "abc") none = .storageError ∧
    searchArticles sampleDB none none none (some "abc") (some "1") = .storageError ∧
    (match getUserCreatedArticles sampleDB none "alice" (some "10") (some "abc") with
     | .ok r => r.page
     | _ => some 0) = none := by
  decide

/-- C9: the feed of a viewer who follows nobody, queried with default
parameters, is the empty page `{0, 0, 1, []}`: the follow lookup yields
an empty id set and the `$in` predicate matches no article. -/
theorem feed_empty_when_following_nobody (db : DB) (viewer : Option String)
    (h : ∀ fo ∈ db.follows, oidMatch viewer fo.follower_id = false) :
    getFeedArticles db viewer none none =
      .ok { total_results := 0, total_pages := 0, page := some 1, results := [] } := by
  have hf : db.follows.filter (fun fo => oidMatch viewer fo.follower_id) = [] := by
    rw [List.filter_eq_nil_iff]
    intro fo hfo
    simp [h fo hfo]
  have hm : db.articles.filter
      (fun a => (([] : List Follow).map (fun fo => fo.following_id)).contains a.author_id) = [] := by
    simp
  simp only [getFeedArticles, parsedLimit, parsedPage, hf]
  norm_num [hm, pageSlice, sortByKeyDesc, ceilDivMongo]

/-- Witness for C9 at a concrete store: a viewer with no follow records
gets the empty first page even though articles exist. -/
theorem feed_empty_when_following_nobody_witness :
    getFeedArticles sampleDB (some "u9") none none =
      .ok { total_results := 0, total_pages := 0, page := some 1, results := [] } :=
  feed_empty_when_following_nobody sampleDB (some "u9") (by decide)

/-- For a positive divisor the modelled `$ceil`/`$divide` pair computes
the mathematical ceiling of the exact quotient. -/
theorem ceilDivMongo_eq_ceil (a : Nat) (l : Int) (hl : 0 < l) :
    ceilDivMongo a l = ⌈(a : ℚ) / (l : ℚ)⌉ := by
  unfold ceilDivMongo
  rw [if_pos hl]
  set b := l.toNat with hbdef
  have hb1 : 1 ≤ b := by omega
  have hlq : (l : ℚ) = (b : ℚ) := by
    have : (b : Int) = l := Int.toNat_of_nonneg hl.le
    exact_mod_cast this.symm
  have hbq : (0 : ℚ) < (b : ℚ) := by exact_mod_cast hb1
  set q := (a + b - 1) / b with hqdef
  have hdm := Nat.div_add_mod (a + b - 1) b
  set m := (a + b - 1) % b with hmdef
  have hmlt : m < b := Nat.mod_lt _ (by omega)
  have hq1 : b * q + m = a + b - 1 := hdm
  have hab1 : 1 ≤ a + b := by omega
  have hq2 : (b : ℚ) * q + m = a + b - 1 := by exact_mod_cast hq1
  have hmq : (m : ℚ) < b := by exact_mod_cast hmlt
  have hm0 : (0 : ℚ) ≤ m := by positivity
  have hmq1 : (m : ℚ) + 1 ≤ b := by exact_mod_cast hmlt
  rw [hlq]
  symm
  rw [Int.ceil_eq_iff]
  constructor
  · push_cast
    rw [lt_div_iff₀ hbq]
    nlinarith [hq2, hmq, hm0, hmq1]
  · push_cast
    rw [div_le_iff₀ hbq]
    nlinarith [hq2, hmq, hm0, hmq1]

/-- C7: every listing endpoint returns
`total_pages = ceil(total_results / limit)` whenever the parsed limit is
positive, and echoes the parsed page parameter unconditionally (no
clamping to the valid range): one conjunct per listing mode. -/
theorem total_pages_ceil_and_page_echo :
    (∀ (db : DB) (viewer : Option String) (limitQ pageQ : Option String) (l : Int)
       (r : PagedResult), parsedLimit limitQ = some l → 0 < l →
       getFeedArticles db viewer limitQ pageQ = .ok r →
       r.total_pages = ⌈(r.total_results : ℚ) / (l : ℚ)⌉ ∧ r.page = parsedPage pageQ) ∧
    (∀ (db : DB) (viewer : Option String) (username : String) (limitQ pageQ : Option String)
       (l : Int) (r : PagedResult), parsedLimit limitQ = some l → 0 < l →
       getFavouriteArticles db viewer username limitQ pageQ = .ok r →
       r.total_pages = ⌈(r.total_results : ℚ) / (l : ℚ)⌉ ∧ r.page = parsedPage pageQ) ∧
    (∀ (db : DB) (viewer : Option String) (username : String) (limitQ pageQ : Option String)
       (l : Int) (r : PagedResult), parsedLimit limitQ = some l → 0 < l →
       getUserCreatedArticles db viewer username limitQ pageQ = .ok r →
       r.total_pages = ⌈(r.total_results : ℚ) / (l : ℚ)⌉ ∧ r.page = parsedPage pageQ) ∧
    (∀ (db : DB) (viewer : Option String) (titleQ tagsQ limitQ pageQ : Option String)
       (l : Int) (r : PagedResult), parsedLimit limitQ = some l → 0 < l →
       searchArticles db viewer titleQ tagsQ limitQ pageQ = .ok r →
       r.total_pages = ⌈(r.total_results : ℚ) / (l : ℚ)⌉ ∧ r.page = parsedPage pageQ) := by
  refine ⟨?_, ?_, ?_, ?_⟩
  · intro db viewer limitQ pageQ l r hl hl0 h
    cases hp : parsedPage pageQ with
    | none =>
      simp only [getFeedArticles, hl, hp] at h
      exact absurd h (by simp)
    | some p =>
      simp only [getFeedArticles, hl, hp] at h
      by_cases hc : (1 : Int) ≤ l ∧ (1 : Int) ≤ p
      · rw [if_pos hc] at h
        cases h
        exact ⟨ceilDivMongo_eq_ceil _ _ hl0, rfl⟩
      · rw [if_neg hc] at h
        exact absurd h (by simp)
  · intro db viewer username limitQ pageQ l r hl hl0 h
    cases hu : db.users.find? (fun u => u.username == username) with
    | none =>
      simp only [getFavouriteArticles, hu] at h
      exact absurd h (by simp)
    | some target =>
      cases hp : parsedPage pageQ with
      | none =>
        simp only [getFavouriteArticles, hu, hl, hp] at h
        exact absurd h (by simp)
      | some p =>
        simp only [getFavouriteArticles, hu, hl, hp] at h
        by_cases hc : (1 : Int) ≤ l ∧ (1 : Int) ≤ p
        · rw [if_pos hc] at h
          cases h
          exact ⟨ceilDivMongo_eq_ceil _ _ hl0, rfl⟩
        · rw [if_neg hc] at h
          exact absurd h (by simp)
  · intro db viewer username limitQ pageQ l r hl hl0 h
    cases hu : db.users.find? (fun u => u.username == username) with
    | none =>
      simp only [getUserCreatedArticles, hu] at h
      exact absurd h (by simp)
    | some target =>
      simp only [getUserCreatedArticles, hu, hl] at h
      rw [if_pos (by omega)] at h
      cases h
      exact ⟨ceilDivMongo_eq_ceil _ _ hl0, rfl⟩
  · intro db viewer titleQ tagsQ limitQ pageQ l r hl hl0 h
    cases hq : searchPred titleQ tagsQ with
    | none =>
      simp only [searchArticles, hq] at h
      exact absurd h (by simp)
    | some pred =>
      cases hp : parsedPage pageQ with
      | none =>
        simp only [searchArticles, hq, hl, hp] at h
        exact absurd h (by simp)
      | some p =>
        simp only [searchArticles, hq, hl, hp] at h
        by_cases hc : (1 : Int) ≤ l ∧ (1 : Int) ≤ p
        · rw [if_pos hc] at h
          cases h
          exact ⟨ceilDivMongo_eq_ceil _ _ hl0, rfl⟩
        · rw [if_neg hc] at h
          exact absurd h (by simp)

/-- The enriched second sample article as returned on page 2 of an
unfiltered one-per-page search. -/
def wEnrichedB : EnrichedArticle :=
  { id := "a2", title := "Python post", slug := "s2", content := "c2",
    tags := ["python"], favouriteCount := 0, createdAt := 1, author_id := "u1",
    author := some sampleUser, favourited := false }

/-- The paged envelope returned for that search. -/
def wPaged : PagedResult :=
  { total_results := 2, total_pages := 2, page := some 2, results := [wEnrichedB] }

/-- Witness for C7 at a concrete query (`limit = 1`, `page = 2` over two
articles): `total_pages = ceil(2 / 1) = 2` and the page echo is 2. -/
theorem total_pages_ceil_and_page_echo_witness :
    searchArticles sampleDB none none none (some "1") (some "2") = .ok wPaged ∧
    wPaged.total_pages = ⌈(wPaged.total_results : ℚ) / ((1 : Int) : ℚ)⌉ ∧
    wPaged.page = parsedPage (some "2") := by
  have h : searchArticles sampleDB none none none (some "1") (some "2") = .ok wPaged := by
    decide
  exact ⟨h, total_pages_ceil_and_page_echo.2.2.2 sampleDB none none none
    (some "1") (some "2") 1 wPaged (by decide) (by norm_num) h⟩

/-- C6: in every enrichment path (article-based listings, favourite-based
listing, single-article read), `favourited = true` iff a `Favourite`
record exists for the viewer id and the article id, and an absent viewer
id yields `favourited = false` unconditionally. -/
theorem favourited_iff_favourite_record :
    (∀ (db : DB) (v : String) (a : Article),
       (enrichArticle db (some v) a).favourited = true ↔
         ∃ f ∈ db.favourites, f.user_id = v ∧ f.article_id = a.id) ∧
    (∀ (db : DB) (a : Article), (enrichArticle db none a).favourited = false) ∧
    (∀ (db : DB) (v : String) (f : Favourite) (e : EnrichedArticle),
       enrichFavourite db (some v) f = some e →
       (e.favourited = true ↔
         ∃ g ∈ db.favourites, g.user_id = v ∧ g.article_id = f.article_id)) ∧
    (∀ (db : DB) (f : Favourite) (e : EnrichedArticle),
       enrichFavourite db none f = some e → e.favourited = false) ∧
    (∀ (db : DB) (v : String) (slug : String) (e : EnrichedArticle),
       getArticle db (some v) slug = some e →
       (e.favourited = true ↔
         ∃ f ∈ db.favourites, f.user_id = v ∧ f.article_id = e.id)) ∧
    (∀ (db : DB) (slug : String) (e : EnrichedArticle),
       getArticle db none slug = some e → e.favourited = false) := by
  refine ⟨?_, ?_, ?_, ?_, ?_, ?_⟩
  · intro db v a
    simp [enrichArticle, oidMatch, List.length_pos_iff_exists_mem, List.mem_filter,
      Bool.and_eq_true, beq_iff_eq, and_assoc]
  · intro db a
    simp [enrichArticle, oidMatch]
  · intro db v f e h
    cases hfind : db.articles.find? (fun a => a.id == f.article_id) with
    | none => simp [enrichFavourite, hfind] at h
    | some a =>
      simp only [enrichFavourite, hfind, Option.some.injEq] at h
      subst h
      simp [oidMatch, List.length_pos_iff_exists_mem, List.mem_filter,
        Bool.and_eq_true, beq_iff_eq, and_assoc]
  · intro db f e h
    cases hfind : db.articles.find? (fun a => a.id == f.article_id) with
    | none => simp [enrichFavourite, hfind] at h
    | some a =>
      simp only [enrichFavourite, hfind, Option.some.injEq] at h
      subst h
      simp [oidMatch]
  · intro db v slug e h
    cases hfind : db.articles.find? (fun a => a.slug == slug) with
    | none => simp [getArticle, hfind] at h
    | some a =>
      simp only [getArticle, hfind, Option.some.injEq] at h
      subst h
      simp [List.find?_isSome, Bool.and_eq_true, beq_iff_eq]
  · intro db slug e h
    cases hfind : db.articles.find? (fun a => a.slug == slug) with
    | none => simp [getArticle, hfind] at h
    | some a =>
      simp only [getArticle, hfind, Option.some.injEq] at h
      subst h
      rfl

/-- The enriched first sample article as seen by its favouriting viewer. -/
def wEnrichedA : EnrichedArticle :=
  { id := "a1", title := "Hello Go", slug := "s1", content := "c1",
    tags := ["go", "backend"], favouriteCount := 1, createdAt := 2, author_id := "u1",
    author := some sampleUser, favourited := true }

/-- Witness for C6: reading the favourited sample article as the viewer
who favourited it gives `favourited = true`, matching the stored record. -/
theorem favourited_iff_favourite_record_witness :
    ((wEnrichedA.favourited = true) ↔
      ∃ f ∈ favSampleDB.favourites, f.user_id = "u1" ∧ f.article_id = wEnrichedA.id) ∧
    wEnrichedA.favourited = true :=
  ⟨favourited_iff_favourite_record.2.2.2.2.1 favSampleDB "u1" "s1" wEnrichedA (by decide),
   by decide⟩

/-- The counter bump preserves the record id. -/
theorem bumpBySlug_id (s : String) (d : Int) (a : Article) :
    (bumpBySlug s d a).id = a.id := by
  unfold bumpBySlug; split <;> rfl

/-- The counter bump preserves the slug. -/
theorem bumpBySlug_slug (s : String) (d : Int) (a : Article) :
    (bumpBySlug s d a).slug = a.slug := by
  unfold bumpBySlug; split <;> rfl

/-- The favourite-record filter only inspects article ids and slugs, so
it is unchanged by a counter bump of the article list. -/
theorem favMatch_map_bumpBySlug (articles : List Article) (s' : String) (d : Int)
    (v s : String) (f : Favourite) :
    favMatch (articles.map (bumpBySlug s' d)) v s f = favMatch articles v s f := by
  unfold favMatch
  have hfun : ((fun a => a.id == f.article_id && a.slug == s) ∘ bumpBySlug s' d) =
      (fun a : Article => a.id == f.article_id && a.slug == s) := by
    funext a
    simp [Function.comp, bumpBySlug_id, bumpBySlug_slug]
  rw [List.any_map, hfun]

/-- C5: favouriting an already-favourited article fails with `Conflict`
and leaves the store unchanged; unfavouriting a non-favourited article
fails with `NotFound` and leaves the store unchanged; consequently
favourite twice in sequence yields success then `Conflict`, and (when the
store holds at most one favourite record per pair, as the toggle
maintains) unfavourite twice yields success then `NotFound`. -/
theorem favourite_toggle_failure_idempotence :
    (∀ (db : DB) (v s i : String) (t : Nat),
       (∃ f ∈ db.favourites, favMatch db.articles v s f = true) →
       favouriteArticle db v s i t = .conflict ∧ applyOp db (.fav v s i t) = db) ∧
    (∀ (db : DB) (v s : String),
       (¬ ∃ f ∈ db.favourites, favMatch db.articles v s f = true) →
       unfavouriteArticle db v s = .notFound ∧ applyOp db (.unfav v s) = db) ∧
    (∀ (db db' : DB) (v s i i' : String) (t t' : Nat) (art : Article),
       favouriteArticle db v s i t = .ok db' art →
       favouriteArticle db' v s i' t' = .conflict) ∧
    (∀ (db db' : DB) (v s : String) (art : Article),
       unfavouriteArticle db v s = .ok db' art →
       (db.favourites.filter (favMatch db.articles v s)).length ≤ 1 →
       unfavouriteArticle db' v s = .notFound) := by
  refine ⟨?_, ?_, ?_, ?_⟩
  · intro db v s i t hex
    rcases hex with ⟨f, hf, hp⟩
    have hsome : (db.favourites.find? (favMatch db.articles v s)).isSome := by
      rw [List.find?_isSome]
      exact ⟨f, hf, hp⟩
    obtain ⟨g, hg⟩ := Option.isSome_iff_exists.mp hsome
    have hres : favouriteArticle db v s i t = .conflict := by
      unfold favouriteArticle
      rw [hg]
    exact ⟨hres, by simp [applyOp, hres]⟩
  · intro db v s hnex
    have hnone : db.favourites.find? (favMatch db.articles v s) = none := by
      rw [List.find?_eq_none]
      intro f hf hp
      exact hnex ⟨f, hf, hp⟩
    have hres : unfavouriteArticle db v s = .notFound := by
      unfold unfavouriteArticle
      rw [hnone]
    exact ⟨hres, by simp [applyOp, hres]⟩
  · intro db db' v s i i' t t' art h
    cases h0 : db.favourites.find? (favMatch db.articles v s) with
    | some g =>
      simp only [favouriteArticle, h0] at h
      exact absurd h (by simp)
    | none =>
      cases h1 : db.articles.find? (fun a => a.slug == s) with
      | none =>
        simp only [favouriteArticle, h0, h1] at h
        exact absurd h (by simp)
      | some b =>
        cases h2 : db.users.find? (fun u => u.id == v) with
        | none =>
          simp only [favouriteArticle, h0, h1, h2] at h
          exact absurd h (by simp)
        | some u =>
          simp only [favouriteArticle, h0, h1, h2] at h
          cases h
          have hb_mem := List.mem_of_find?_eq_some h1
          have hb_slug : b.slug = s := by
            have := List.find?_some h1
            simpa [beq_iff_eq] using this
          have hmatch : favMatch (db.articles.map (bumpBySlug s 1)) v s
              { id := i, user_id := v, article_id := b.id, createdAt := t } = true := by
            rw [favMatch_map_bumpBySlug]
            simp only [favMatch, beq_self_eq_true, Bool.true_and, List.any_eq_true]
            exact ⟨b, hb_mem, by simp [hb_slug]⟩
          have hsome : (List.find? (favMatch (db.articles.map (bumpBySlug s 1)) v s)
              (db.favourites ++
                [({ id := i, user_id := v, article_id := b.id, createdAt := t } : Favourite)])).isSome := by
            rw [List.find?_isSome]
            exact ⟨({ id := i, user_id := v, article_id := b.id, createdAt := t } : Favourite),
              by simp, hmatch⟩
          obtain ⟨g, hg⟩ := Option.isSome_iff_exists.mp hsome
          unfold favouriteArticle
          simp only [hg]
  · intro db db' v s art h huniq
    cases h0 : db.favourites.find? (favMatch db.articles v s) with
    | none =>
      simp only [unfavouriteArticle, h0] at h
      exact absurd h (by simp)
    | some f =>
      cases h1 : db.articles.find? (fun a => a.slug == s) with
      | none =>
        simp only [unfavouriteArticle, h0, h1] at h
        exact absurd h (by simp)
      | some b =>
        simp only [unfavouriteArticle, h0, h1] at h
        cases h
        have hf_mem := List.mem_of_find?_eq_some h0
        have hf_p := List.find?_some h0
        have hperm := List.perm_cons_erase hf_mem
        have hlen := ((hperm.filter (favMatch db.articles v s)).length_eq)
        rw [List.filter_cons, if_pos hf_p] at hlen
        simp only [List.length_cons] at hlen
        have hzero :
            ((db.favourites.erase f).filter (favMatch db.articles v s)).length = 0 := by
          omega
        have hnil := List.length_eq_zero.mp hzero
        have hnone : (db.favourites.erase f).find?
            (favMatch (db.articles.map (bumpBySlug s (-1))) v s) = none := by
          rw [List.find?_eq_none]
          intro g hg
          rw [favMatch_map_bumpBySlug]
          have := List.filter_eq_nil_iff.mp hnil g hg
          simpa using this
        unfold unfavouriteArticle
        simp only [hnone]

/-- The sample store right after the sample viewer favourites "s1". -/
def wDBAfterFav : DB :=
  { users := [sampleUser]
    articles := [{ sampleArticleA with favouriteCount := 1 }, sampleArticleB]
    favourites := [{ id := "f1", user_id := "u1", article_id := "a1", createdAt := 5 }]
    follows := [{ follower_id := "u1", following_id := "u2" }] }

/-- Witness for C5: after a successful favourite the second favourite
call returns `Conflict`, and unfavouriting with no record returns
`NotFound`. -/
theorem favourite_toggle_failure_idempotence_witness :
    favouriteArticle wDBAfterFav "u1" "s1" "f2" 6 = .conflict ∧
    unfavouriteArticle sampleDB "u1" "s1" = .notFound := by
  constructor
  · exact favourite_toggle_failure_idempotence.2.2.1 sampleDB wDBAfterFav "u1" "s1" "f1" "f2"
      5 6 { sampleArticleA with favouriteCount := 1 } (by decide)
  · exact (favourite_toggle_failure_idempotence.2.1 sampleDB "u1" "s1" (by decide)).1

/-- C10: a successful favourite (resp. unfavourite) leaves users and
follows untouched and changes articles pointwise: every field of every
article is preserved except the `favouriteCount` of the articles with the
requested slug, which moves by exactly +1 (resp. -1); the returned
article is the stored target article with the new count. -/
theorem toggle_frame_effect :
    (∀ (db db' : DB) (v s i : String) (t : Nat) (art : Article),
       favouriteArticle db v s i t = .ok db' art →
       db'.users = db.users ∧ db'.follows = db.follows ∧
       List.Forall₂ (fun a a' =>
         a'.id = a.id ∧ a'.title = a.title ∧ a'.slug = a.slug ∧ a'.content = a.content ∧
         a'.tags = a.tags ∧ a'.author_id = a.author_id ∧ a'.createdAt = a.createdAt ∧
         a'.favouriteCount = (if a.slug = s then a.favouriteCount + 1 else a.favouriteCount))
         db.articles db'.articles ∧
       art ∈ db'.articles ∧
       ∃ b ∈ db.articles, b.slug = s ∧ art = { b with favouriteCount := b.favouriteCount + 1 }) ∧
    (∀ (db db' : DB) (v s : String) (art : Article),
       unfavouriteArticle db v s = .ok db' art →
       db'.users = db.users ∧ db'.follows = db.follows ∧
       List.Forall₂ (fun a a' =>
         a'.id = a.id ∧ a'.title = a.title ∧ a'.slug = a.slug ∧ a'.content = a.content ∧
         a'.tags = a.tags ∧ a'.author_id = a.author_id ∧ a'.createdAt = a.createdAt ∧
         a'.favouriteCount = (if a.slug = s then a.favouriteCount - 1 else a.favouriteCount))
         db.articles db'.articles ∧
       art ∈ db'.articles ∧
       ∃ b ∈ db.articles, b.slug = s ∧ art = { b with favouriteCount := b.favouriteCount - 1 }) := by
  constructor
  · intro db db' v s i t art h
    cases h0 : db.favourites.find? (favMatch db.articles v s) with
    | some g =>
      simp only [favouriteArticle, h0] at h
      exact absurd h (by simp)
    | none =>
      cases h1 : db.articles.find? (fun a => a.slug == s) with
      | none =>
        simp only [favouriteArticle, h0, h1] at h
        exact absurd h (by simp)
      | some b =>
        cases h2 : db.users.find? (fun u => u.id == v) with
        | none =>
          simp only [favouriteArticle, h0, h1, h2] at h
          exact absurd h (by simp)
        | some u =>
          simp only [favouriteArticle, h0, h1, h2] at h
          cases h
          have hb_mem := List.mem_of_find?_eq_some h1
          have hb_slug : b.slug = s := by
            have := List.find?_some h1
            simpa [beq_iff_eq] using this
          refine ⟨rfl, rfl, ?_, ?_, b, hb_mem, hb_slug, rfl⟩
          · rw [List.forall₂_map_right_iff, List.forall₂_same]
            intro a ha
            by_cases hs : a.slug = s <;>
              simp [bumpBySlug, hs]
          · have : bumpBySlug s 1 b = { b with favouriteCount := b.favouriteCount + 1 } := by
              simp [bumpBySlug, hb_slug]
            exact this ▸ List.mem_map_of_mem (bumpBySlug s 1) hb_mem
  · intro db db' v s art h
    cases h0 : db.favourites.find? (favMatch db.articles v s) with
    | none =>
      simp only [unfavouriteArticle, h0] at h
      exact absurd h (by simp)
    | some f =>
      cases h1 : db.articles.find? (fun a => a.slug == s) with
      | none =>
        simp only [unfavouriteArticle, h0, h1] at h
        exact absurd h (by simp)
      | some b =>
        simp only [unfavouriteArticle, h0, h1] at h
        cases h
        have hb_mem := List.mem_of_find?_eq_some h1
        have hb_slug : b.slug = s := by
          have := List.find?_some h1
          simpa [beq_iff_eq] using this
        refine ⟨rfl, rfl, ?_, ?_, b, hb_mem, hb_slug, rfl⟩
        · rw [List.forall₂_map_right_iff, List.forall₂_same]
          intro a ha
          by_cases hs : a.slug = s <;>
            simp [bumpBySlug, hs, sub_eq_add_neg]
        · have : bumpBySlug s (-1) b = { b with favouriteCount := b.favouriteCount - 1 } := by
            simp [bumpBySlug, hb_slug, sub_eq_add_neg]
          exact this ▸ List.mem_map_of_mem (bumpBySlug s (-1)) hb_mem

/-- Witness for C10 at the sample store: favouriting "s1" keeps the user
list and stores the target article with its count moved to 1. -/
theorem toggle_frame_effect_witness :
    wDBAfterFav.users = sampleDB.users ∧
    ({ sampleArticleA with favouriteCount := 1 } : Article) ∈ wDBAfterFav.articles := by
  obtain ⟨hu, hf, hfa, hmem, hex⟩ := toggle_frame_effect.1 sampleDB wDBAfterFav "u1" "s1" "f1"
    5 { sampleArticleA with favouriteCount := 1 } (by decide)
  exact ⟨hu, hmem⟩

/-- A counter bump does not change the article id projection of a list. -/
theorem map_bumpBySlug_map_id (l : List Article) (s : String) (d : Int) :
    (l.map (bumpBySlug s d)).map (fun a => a.id) = l.map (fun a => a.id) := by
  rw [List.map_map]
  exact List.map_congr_left (fun a _ => bumpBySlug_id s d a)

/-- A counter bump does not change the slug projection of a list. -/
theorem map_bumpBySlug_map_slug (l : List Article) (s : String) (d : Int) :
    (l.map (bumpBySlug s d)).map (fun a => a.slug) = l.map (fun a => a.slug) := by
  rw [List.map_map]
  exact List.map_congr_left (fun a _ => bumpBySlug_slug s d a)

/-- One toggle request preserves store consistency: the id and slug
uniqueness are untouched and the favourite counters keep agreeing with
the favourite records. -/
theorem consistent_applyOp (db : DB) (op : Op) (h : Consistent db) :
    Consistent (applyOp db op) := by
  obtain ⟨hid, hslug, hinv⟩ := h
  have hidinj := List.inj_on_of_nodup_map hid
  have hsluginj := List.inj_on_of_nodup_map hslug
  cases op with
  | fav v s i t =>
    cases hres : favouriteArticle db v s i t with
    | conflict => simp only [applyOp, hres]; exact ⟨hid, hslug, hinv⟩
    | notFound => simp only [applyOp, hres]; exact ⟨hid, hslug, hinv⟩
    | storageError => simp only [applyOp, hres]; exact ⟨hid, hslug, hinv⟩
    | ok db' art =>
      simp only [applyOp, hres]
      cases h0 : db.favourites.find? (favMatch db.articles v s) with
      | some g =>
        simp only [favouriteArticle, h0] at hres
        exact absurd hres (by simp)
      | none =>
        cases h1 : db.articles.find? (fun a => a.slug == s) with
        | none =>
          simp only [favouriteArticle, h0, h1] at hres
          exact absurd hres (by simp)
        | some b =>
          cases h2 : db.users.find? (fun u => u.id == v) with
          | none =>
            simp only [favouriteArticle, h0, h1, h2] at hres
            exact absurd hres (by simp)
          | some u =>
            simp only [favouriteArticle, h0, h1, h2, ToggleResult.ok.injEq] at hres
            obtain ⟨hdb', hart⟩ := hres
            subst hdb'
            have hb_mem := List.mem_of_find?_eq_some h1
            have hb_slug : b.slug = s := by
              have := List.find?_some h1
              simpa [beq_iff_eq] using this
            refine ⟨?_, ?_, ?_⟩
            · show ((db.articles.map (bumpBySlug s 1)).map (fun a => a.id)).Nodup
              rw [map_bumpBySlug_map_id]
              exact hid
            · show ((db.articles.map (bumpBySlug s 1)).map (fun a => a.slug)).Nodup
              rw [map_bumpBySlug_map_slug]
              exact hslug
            · intro a' ha'
              obtain ⟨a, ha, rfl⟩ := List.mem_map.mp ha'
              simp only [bumpBySlug_id]
              show (bumpBySlug s 1 a).favouriteCount =
                (((db.favourites ++
                  [({ id := i, user_id := v, article_id := b.id, createdAt := t } : Favourite)]).filter
                    (fun f => f.article_id == a.id)).length : Int)
              rw [List.filter_append, List.length_append]
              by_cases hs : a.slug = s
              · have hab : a = b := hsluginj ha hb_mem (by rw [hs, hb_slug])
                subst hab
                have hone : (([{ id := i, user_id := v, article_id := a.id, createdAt := t }] :
                    List Favourite).filter (fun f => f.article_id == a.id)).length = 1 := by
                  simp
                rw [hone]
                have := hinv a ha
                simp only [bumpBySlug, hs, if_pos, beq_self_eq_true, if_true]
                push_cast
                omega
              · have hne : (b.id == a.id) = false := by
                  rw [beq_eq_false_iff_ne]
                  intro he
                  exact hs (by rw [hidinj ha hb_mem he.symm, hb_slug])
                have hzero : (([{ id := i, user_id := v, article_id := b.id, createdAt := t }] :
                    List Favourite).filter (fun f => f.article_id == a.id)).length = 0 := by
                  simp [hne]
                rw [hzero]
                have hba : bumpBySlug s 1 a = a := by
                  simp [bumpBySlug, hs]
                rw [hba]
                have := hinv a ha
                omega
  | unfav v s =>
    cases hres : unfavouriteArticle db v s with
    | conflict => simp only [applyOp, hres]; exact ⟨hid, hslug, hinv⟩
    | notFound => simp only [applyOp, hres]; exact ⟨hid, hslug, hinv⟩
    | storageError => simp only [applyOp, hres]; exact ⟨hid, hslug, hinv⟩
    | ok db' art =>
      simp only [applyOp, hres]
      cases h0 : db.favourites.find? (favMatch db.articles v s) with
      | none =>
        simp only [unfavouriteArticle, h0] at hres
        exact absurd hres (by simp)
      | some f =>
        cases h1 : db.articles.find? (fun a => a.slug == s) with
        | none =>
          simp only [unfavouriteArticle, h0, h1] at hres
          exact absurd hres (by simp)
        | some b =>
          simp only [unfavouriteArticle, h0, h1, ToggleResult.ok.injEq] at hres
          obtain ⟨hdb', hart⟩ := hres
          subst hdb'
          have hb_mem := List.mem_of_find?_eq_some h1
          have hb_slug : b.slug = s := by
            have := List.find?_some h1
            simpa [beq_iff_eq] using this
          have hf_mem := List.mem_of_find?_eq_some h0
          have hf_p := List.find?_some h0
          have hf_aid : f.article_id = b.id := by
            simp only [favMatch, Bool.and_eq_true, List.any_eq_true, beq_iff_eq] at hf_p
            obtain ⟨-, c, hc_mem, hc_id, hc_slug⟩ := hf_p
            rw [← hc_id]
            rw [hsluginj hc_mem hb_mem (by rw [hc_slug, hb_slug])]
          have hperm := List.perm_cons_erase hf_mem
          refine ⟨?_, ?_, ?_⟩
          · show ((db.articles.map (bumpBySlug s (-1))).map (fun a => a.id)).Nodup
            rw [map_bumpBySlug_map_id]
            exact hid
          · show ((db.articles.map (bumpBySlug s (-1))).map (fun a => a.slug)).Nodup
            rw [map_bumpBySlug_map_slug]
            exact hslug
          · intro a' ha'
            obtain ⟨a, ha, rfl⟩ := List.mem_map.mp ha'
            simp only [bumpBySlug_id]
            show (bumpBySlug s (-1) a).favouriteCount =
              (((db.favourites.erase f).filter (fun g => g.article_id == a.id)).length : Int)
            have hlen := (hperm.filter (fun g => g.article_id == a.id)).length_eq
            rw [List.filter_cons] at hlen
            by_cases hs : a.slug = s
            · have hab : a = b := hsluginj ha hb_mem (by rw [hs, hb_slug])
              subst hab
              have hpf : (f.article_id == a.id) = true := by
                rw [beq_iff_eq, hf_aid]
              rw [if_pos hpf, List.length_cons] at hlen
              have := hinv a ha
              have hba : bumpBySlug s (-1) a = { a with favouriteCount := a.favouriteCount + (-1) } := by
                simp [bumpBySlug, hs]
              rw [hba]
              push_cast at this hlen ⊢
              omega
            · have hpf : (f.article_id == a.id) = false := by
                rw [beq_eq_false_iff_ne, hf_aid]
                intro he
                exact hs (by rw [hidinj ha hb_mem he.symm, hb_slug])
              rw [if_neg (by simp [hpf])] at hlen
              have := hinv a ha
              have hba : bumpBySlug s (-1) a = a := by
                simp [bumpBySlug, hs]
              rw [hba]
              omega

/-- C4: after any finite sequence of favourite/unfavourite requests on a
consistent store, every article's `favouriteCount` equals the number of
live `Favourite` records referencing it (so it is never negative and
never double-counts). -/
theorem favouriteCount_invariant (db : DB) (ops : List Op) (h : Consistent db) :
    favCountInv (applyOps db ops) ∧
    ∀ a ∈ (applyOps db ops).articles, 0 ≤ a.favouriteCount := by
  have hc : Consistent (applyOps db ops) := by
    induction ops generalizing db with
    | nil => exact h
    | cons o os ih => exact ih (applyOp db o) (consistent_applyOp db o h)
  refine ⟨hc.2.2, ?_⟩
  intro a ha
  rw [hc.2.2 a ha]
  positivity

/-- A concrete toggle sequence: favourite, unfavourite, favourite the
other article. -/
def wOps : List Op :=
  [Op.fav "u1" "s1" "f1" 5, Op.unfav "u1" "s1", Op.fav "u1" "s2" "f2" 7]

/-- Witness for C4: the invariant holds after running the concrete toggle
sequence on the sample store. -/
theorem favouriteCount_invariant_witness :
    favCountInv (applyOps sampleDB wOps) ∧
    ∀ a ∈ (applyOps sampleDB wOps).articles, 0 ≤ a.favouriteCount :=
  favouriteCount_invariant sampleDB wOps (by decide)

/-- Simplified concatenation with `epsilon` on the left is the identity. -/
theorem rcat_epsilon_left (r : Regex) : rcat .epsilon r = r := by
  cases r <;> rfl

/-- Simplified concatenation with `fail` on the left is `fail`. -/
theorem rcat_fail_left (r : Regex) : rcat .fail r = .fail := by
  cases r <;> rfl

/-- `fail` matches no prefix. -/
theorem matchesPrefix_fail (cs : List Char) : matchesPrefix .fail cs = false := by
  induction cs with
  | nil => rfl
  | cons c cs ih => simp [matchesPrefix, rderiv, nullable, ih]

/-- The right-nested literal chain regex of a character list — the shape
the parser produces for a metacharacter-free pattern. -/
def litRegex : List Char → Regex
  | [] => .epsilon
  | c :: cs => .concat (.char c) (litRegex cs)

/-- A literal chain accepts the empty string iff it is empty. -/
theorem nullable_litRegex (cs : List Char) : nullable (litRegex cs) = cs.isEmpty := by
  cases cs <;> rfl

/-- A literal chain matches a prefix of `hay` exactly when it is a prefix
of `hay`. -/
theorem matchesPrefix_litRegex (needle hay : List Char) :
    matchesPrefix (litRegex needle) hay = needle.isPrefixOf hay := by
  induction needle generalizing hay with
  | nil =>
    cases hay with
    | nil => rfl
    | cons x t => simp [litRegex, matchesPrefix, nullable, List.isPrefixOf]
  | cons c cs ih =>
    cases hay with
    | nil => simp [litRegex, matchesPrefix, nullable, List.isPrefixOf]
    | cons x t =>
      have hstep : matchesPrefix (litRegex (c :: cs)) (x :: t) =
          matchesPrefix (rcat (if x == c then Regex.epsilon else Regex.fail) (litRegex cs)) t := by
        show (nullable (litRegex (c :: cs)) ||
          matchesPrefix (rderiv (litRegex (c :: cs)) x) t) = _
        rw [show nullable (litRegex (c :: cs)) = false from rfl]
        rw [show rderiv (litRegex (c :: cs)) x =
          rcat (if x == c then Regex.epsilon else Regex.fail) (litRegex cs) from rfl]
        simp
      rw [hstep]
      by_cases hxc : x = c
      · subst hxc
        rw [if_pos (by simp), rcat_epsilon_left, ih]
        show cs.isPrefixOf t = (x :: cs).isPrefixOf (x :: t)
        simp [List.isPrefixOf]
      · have h2 : (c == x) = false := by simp [Ne.symm hxc]
        rw [if_neg (by simp [hxc]), rcat_fail_left, matchesPrefix_fail]
        show false = (c :: cs).isPrefixOf (x :: t)
        simp [List.isPrefixOf, h2]

/-- Searching a literal chain anywhere in `hay` is exactly substring
containment. -/
theorem searchRegex_litRegex (needle hay : List Char) :
    searchRegex (litRegex needle) hay = containsSub hay needle := by
  induction hay with
  | nil =>
    show nullable (litRegex needle) = needle.isEmpty
    exact nullable_litRegex needle
  | cons c t ih =>
    show (matchesPrefix (litRegex needle) (c :: t) || searchRegex (litRegex needle) t) =
      (needle.isPrefixOf (c :: t) || containsSub t needle)
    rw [matchesPrefix_litRegex, ih]

/-- Unpack plainness into the tokenizer's branch conditions. -/
theorem isPlainChar_neq (c : Char) (h : isPlainChar c = true) :
    (c == '\\') = false ∧ (c == '.') = false ∧ (c == '*') = false ∧
    (c == '+') = false ∧ (c == '?') = false ∧ (c == '|') = false := by
  refine ⟨?_, ?_, ?_, ?_, ?_, ?_⟩ <;>
    (rw [beq_eq_false_iff_ne]; intro he; rw [he] at h; exact absurd h (by decide))

/-- A metacharacter-free pattern tokenizes to its literal tokens. -/
theorem rtokenize_plain (cs : List Char) (h : ∀ c ∈ cs, isPlainChar c = true) :
    rtokenize cs = some (cs.map RTok.lit) := by
  induction cs with
  | nil => rfl
  | cons c rest ih =>
    have hc := h c (List.mem_cons_self c rest)
    obtain ⟨h1, h2, h3, h4, h5, h6⟩ := isPlainChar_neq c hc
    have hrest := ih (fun x hx => h x (List.mem_cons_of_mem c hx))
    show rtokenize (c :: rest) = some (RTok.lit c :: rest.map RTok.lit)
    unfold rtokenize
    rw [if_neg (by simp [h1]), if_neg (by simp [h2]), if_neg (by simp [h3]),
      if_neg (by simp [h4]), if_neg (by simp [h5]), if_neg (by simp [h6]),
      if_pos (by simp [hc]), hrest]
    rfl

/-- A bar-free token list forms a single alternant. -/
theorem splitBars_no_bar (ts : List RTok) (h : ∀ t ∈ ts, t ≠ RTok.bar) :
    splitBars ts = [ts] := by
  induction ts with
  | nil => rfl
  | cons t rest ih =>
    have ht := h t (List.mem_cons_self t rest)
    have hrest := ih (fun x hx => h x (List.mem_cons_of_mem t hx))
    cases t with
    | bar => exact absurd rfl ht
    | lit c => simp [splitBars, hrest]
    | dot => simp [splitBars, hrest]
    | star => simp [splitBars, hrest]
    | plus => simp [splitBars, hrest]
    | quest => simp [splitBars, hrest]

/-- A literal token list parses to the literal chain regex. -/
theorem parseSeqTok_lit (cs : List Char) :
    parseSeqTok (cs.map RTok.lit) = some (litRegex cs) := by
  induction cs with
  | nil => rfl
  | cons c rest ih =>
    cases rest with
    | nil => rfl
    | cons c2 rest2 =>
      have hstep : parseSeqTok ((c :: c2 :: rest2).map RTok.lit) =
          (parseSeqTok ((c2 :: rest2).map RTok.lit)).map
            (fun r2 => Regex.concat (.char c) r2) := rfl
      rw [hstep, ih]
      rfl

/-- A metacharacter-free pattern parses to the literal chain regex. -/
theorem parseRegexChars_plain (cs : List Char) (h : ∀ c ∈ cs, isPlainChar c = true) :
    parseRegexChars cs = some (litRegex cs) := by
  unfold parseRegexChars
  rw [rtokenize_plain cs h]
  show parseRegexTokens (cs.map RTok.lit) = some (litRegex cs)
  unfold parseRegexTokens
  rw [splitBars_no_bar (cs.map RTok.lit)
    (by intro t ht; obtain ⟨c, hc, rfl⟩ := List.mem_map.mp ht; simp)]
  simp [parseAlts, parseSeqTok_lit]

/-- On a metacharacter-free pattern the engine's case-insensitive regex
search is exactly the spec's case-insensitive substring containment. -/
theorem regexSearchCI_plain (pat s : String)
    (h : ∀ c ∈ lowerChars pat, isPlainChar c = true) :
    regexSearchCI pat s = some (ciContains pat s) := by
  unfold regexSearchCI ciContains
  rw [parseRegexChars_plain (lowerChars pat) h]
  simp [searchRegex_litRegex]

